import Mathlib

/-!
Shallow embedding of the Biblelib range-enumeration subsystem
(`biblelib/unit/unitrange.py`) and of the word-identifier record type
(`biblelib/words/mappings.py`).

Python strings are modelled as `List Char`.  The canonical identifier
classes (`BID`, `BCID`, `BCVID` from `biblelib/word/bcvwpid.py`), the
`Chapter` and `Verse` unit classes and the `pad` helper are collaborators
whose sources are not part of this repository snapshot; they are modelled
from the spec (fixed-width decimal component strings, componentwise
canonical order, a `lastverse` lookup treated as an external data
parameter).  Everything in `unitrange.py` and `mappings.py` is translated
directly from the source.
-/

deriving instance DecidableEq for Except

namespace Biblelib

/-- The character for the decimal digit `n` (meaningful for `n ≤ 9`). -/
def digitChar (n : Nat) : Char := Char.ofNat (48 + n)

/-- Python `int(s)` on a string of decimal digits (left fold over the digits). -/
def parseNat (l : List Char) : Nat := l.foldl (fun a c => a * 10 + (c.toNat - 48)) 0

/-- Modelled from the spec: the zero-pad helper `pad` of `biblelib/unit/unit.py`
(not among the sources; the spec describes it as "a zero-pad-to-width-3
integer-to-string helper").  `pad i w` is the `w`-digit decimal numeral of `i`,
most significant digit first; for `i < 10 ^ w` this is exactly the zero-padded
decimal string of `i`.  All uses in the sources have `i < 10 ^ w`. -/
def pad : Nat → Nat → List Char
  | _, 0 => []
  | i, w + 1 => pad (i / 10) w ++ [digitChar (i % 10)]

/-- Predicate: `l` is a string of exactly `w` decimal digits (codepoints 48–57). -/
def DigitStr (w : Nat) (l : List Char) : Prop :=
  l.length = w ∧ ∀ c ∈ l, 48 ≤ c.toNat ∧ c.toNat ≤ 57

instance (w : Nat) (l : List Char) : Decidable (DigitStr w l) := by
  unfold DigitStr; exact inferInstance

theorem toNat_digitChar (n : Nat) (h : n ≤ 9) : (digitChar n).toNat = 48 + n := by
  have hv : (48 + n).isValidChar := Or.inl (by omega)
  simp only [digitChar, Char.ofNat, dif_pos hv, Char.ofNatAux, Char.toNat,
    UInt32.toNat, BitVec.toNat_ofNatLt]

theorem digitChar_toNat_sub (c : Char) (h1 : 48 ≤ c.toNat) (h2 : c.toNat ≤ 57) :
    digitChar (c.toNat - 48) = c := by
  have : 48 + (c.toNat - 48) = c.toNat := by omega
  rw [digitChar, this, Char.ofNat_toNat]

theorem parseNat_from (a : Nat) (l : List Char) :
    l.foldl (fun a c => a * 10 + (c.toNat - 48)) a = a * 10 ^ l.length + parseNat l := by
  induction l generalizing a with
  | nil => simp [parseNat]
  | cons c t ih =>
    simp only [List.foldl_cons, List.length_cons, parseNat]
    rw [ih, ih (0 * 10 + (c.toNat - 48))]
    ring

theorem parseNat_cons (c : Char) (t : List Char) :
    parseNat (c :: t) = (c.toNat - 48) * 10 ^ t.length + parseNat t := by
  simp only [parseNat, List.foldl_cons]
  rw [parseNat_from]
  simp only [parseNat]
  ring_nf

theorem parseNat_append (l1 l2 : List Char) :
    parseNat (l1 ++ l2) = parseNat l1 * 10 ^ l2.length + parseNat l2 := by
  simp only [parseNat, List.foldl_append]
  rw [parseNat_from (List.foldl (fun a c => a * 10 + (c.toNat - 48)) 0 l1) l2]
  simp only [parseNat]

theorem parseNat_concat (l : List Char) (c : Char) :
    parseNat (l ++ [c]) = parseNat l * 10 + (c.toNat - 48) := by
  rw [parseNat_append]
  simp [parseNat]

theorem parseNat_lt (l : List Char) (h : ∀ c ∈ l, 48 ≤ c.toNat ∧ c.toNat ≤ 57) :
    parseNat l < 10 ^ l.length := by
  induction l with
  | nil => simp [parseNat]
  | cons c t ih =>
    rw [parseNat_cons, List.length_cons, pow_succ]
    have hd : c.toNat - 48 ≤ 9 := by
      have := h c (List.mem_cons_self c t)
      omega
    have ht : parseNat t < 10 ^ t.length :=
      ih (fun c hc => h c (List.mem_cons_of_mem _ hc))
    calc (c.toNat - 48) * 10 ^ t.length + parseNat t
        < (c.toNat - 48) * 10 ^ t.length + 10 ^ t.length := by omega
      _ = ((c.toNat - 48) + 1) * 10 ^ t.length := by ring
      _ ≤ 10 * 10 ^ t.length := by
          apply Nat.mul_le_mul_right
          omega
      _ = 10 ^ t.length * 10 := by ring

theorem length_pad (i w : Nat) : (pad i w).length = w := by
  induction w generalizing i with
  | zero => rfl
  | succ w ih => simp [pad, ih]

theorem pad_digits (i w : Nat) : ∀ c ∈ pad i w, 48 ≤ c.toNat ∧ c.toNat ≤ 57 := by
  induction w generalizing i with
  | zero => simp [pad]
  | succ w ih =>
    intro c hc
    simp only [pad, List.mem_append, List.mem_singleton] at hc
    rcases hc with hc | hc
    · exact ih (i / 10) c hc
    · subst hc
      rw [toNat_digitChar (i % 10) (by omega)]
      omega

theorem digitStr_pad (i w : Nat) : DigitStr w (pad i w) :=
  ⟨length_pad i w, pad_digits i w⟩

theorem parseNat_pad (i w : Nat) : parseNat (pad i w) = i % 10 ^ w := by
  induction w generalizing i with
  | zero => simp [pad, parseNat, Nat.mod_one]
  | succ w ih =>
    rw [pad, parseNat_concat, ih, toNat_digitChar (i % 10) (by omega)]
    have h1 : 10 ^ (w + 1) = 10 * 10 ^ w := by ring
    rw [h1, Nat.mod_mul]
    omega

theorem parseNat_pad_of_lt (i w : Nat) (h : i < 10 ^ w) : parseNat (pad i w) = i := by
  rw [parseNat_pad, Nat.mod_eq_of_lt h]

theorem pad_parseNat (w : Nat) (l : List Char) (h : DigitStr w l) :
    pad (parseNat l) w = l := by
  induction w generalizing l with
  | zero =>
    obtain ⟨hlen, -⟩ := h
    rw [List.length_eq_zero] at hlen
    subst hlen; rfl
  | succ w ih =>
    obtain ⟨hlen, hdig⟩ := h
    have hne : l ≠ [] := by
      intro h0; rw [h0] at hlen; simp at hlen
    obtain ⟨c, hcd⟩ : ∃ c, l.dropLast ++ [c] = l := ⟨l.getLast hne, List.dropLast_concat_getLast hne⟩
    have hcl : c ∈ l := by
      rw [← hcd]; simp
    have hc : 48 ≤ c.toNat ∧ c.toNat ≤ 57 := hdig c hcl
    have hlen' : l.dropLast.length = w := by
      rw [List.length_dropLast, hlen]; rfl
    have hdig' : ∀ x ∈ l.dropLast, 48 ≤ x.toNat ∧ x.toNat ≤ 57 :=
      fun x hx => hdig x (List.dropLast_subset l hx)
    rw [← hcd, parseNat_concat, pad]
    have hd9 : c.toNat - 48 ≤ 9 := by omega
    have hdiv : (parseNat l.dropLast * 10 + (c.toNat - 48)) / 10 = parseNat l.dropLast := by
      omega
    have hmod : (parseNat l.dropLast * 10 + (c.toNat - 48)) % 10 = c.toNat - 48 := by
      omega
    rw [hdiv, hmod, ih l.dropLast ⟨hlen', hdig'⟩, digitChar_toNat_sub c hc.1 hc.2]

theorem parseNat_injOn (w : Nat) (l1 l2 : List Char)
    (h1 : DigitStr w l1) (h2 : DigitStr w l2) (h : parseNat l1 = parseNat l2) :
    l1 = l2 := by
  rw [← pad_parseNat w l1 h1, ← pad_parseNat w l2 h2, h]

/-! ### Canonical identifiers

Modelled from the spec: `BID`, `BCID`, `BCVID` of `biblelib/word/bcvwpid.py`
(re-exported by `biblelib/word/__init__.py`, source file not in this
snapshot).  Per the spec, a canonical identifier has "a fixed-width textual
encoding and a total order", is "decomposable into book/chapter/verse
component integers" via the string accessors `book_ID`, `chapter_ID`,
`verse_ID`, and is reducible ("simplified") to a coarser identifier kind.
The fixed widths are 2 (book), 3 (chapter) and 3 (verse), so an identifier
is modelled by its component strings; the full encoding is their
concatenation and the canonical (lexicographic) order on the fixed-width
encoding coincides with the componentwise numeric order used here. -/

/-- Book identifier: `BB`, the full encoding is the field `ID`. -/
structure BID where
  ID : List Char
deriving DecidableEq

/-- Book + chapter identifier: encoding `BBCCC`, stored by components. -/
structure BCID where
  book_ID : List Char
  chapter_ID : List Char
deriving DecidableEq

/-- Book + chapter + verse identifier: encoding `BBCCCVVV`, stored by components. -/
structure BCVID where
  book_ID : List Char
  chapter_ID : List Char
  verse_ID : List Char
deriving DecidableEq

/-- The full fixed-width encoding of a `BCID`. -/
def BCID.ID (x : BCID) : List Char := x.book_ID ++ x.chapter_ID

/-- The full fixed-width encoding of a `BCVID`. -/
def BCVID.ID (x : BCVID) : List Char := x.book_ID ++ x.chapter_ID ++ x.verse_ID

/-- Modelled from the spec: `simplify(bcid, BID)` — drop the chapter component. -/
def simplifyBCID_BID (x : BCID) : BID := ⟨x.book_ID⟩

/-- Modelled from the spec: `simplify(bcvid, BID)` — keep only the book component. -/
def simplifyBCVID_BID (x : BCVID) : BID := ⟨x.book_ID⟩

/-- Modelled from the spec: `simplify(bcvid, BCID)` — drop the verse component. -/
def simplifyBCVID_BCID (x : BCVID) : BCID := ⟨x.book_ID, x.chapter_ID⟩

/-- Modelled from the spec: `bcvid.to_bid`, same reduction as `simplify(bcvid, BID)`. -/
def BCVID.to_bid (x : BCVID) : BID := ⟨x.book_ID⟩

/-- Modelled from the spec: the canonical order on chapter identifiers
(componentwise numeric comparison of the fixed-width decimal components,
which agrees with the lexicographic order on the `BBCCC` encoding). -/
def BCID.le (a b : BCID) : Prop :=
  parseNat a.book_ID < parseNat b.book_ID ∨
    (parseNat a.book_ID = parseNat b.book_ID ∧
      parseNat a.chapter_ID ≤ parseNat b.chapter_ID)

instance (a b : BCID) : Decidable (a.le b) := by
  unfold BCID.le; exact inferInstance

/-- Strict canonical order on chapter identifiers. -/
def BCID.lt (a b : BCID) : Prop :=
  parseNat a.book_ID < parseNat b.book_ID ∨
    (parseNat a.book_ID = parseNat b.book_ID ∧
      parseNat a.chapter_ID < parseNat b.chapter_ID)

instance (a b : BCID) : Decidable (a.lt b) := by
  unfold BCID.lt; exact inferInstance

/-- Modelled from the spec: the canonical order on verse identifiers
(componentwise numeric comparison, agreeing with the lexicographic order on
the `BBCCCVVV` encoding). -/
def BCVID.le (a b : BCVID) : Prop :=
  parseNat a.book_ID < parseNat b.book_ID ∨
    (parseNat a.book_ID = parseNat b.book_ID ∧
      (parseNat a.chapter_ID < parseNat b.chapter_ID ∨
        (parseNat a.chapter_ID = parseNat b.chapter_ID ∧
          parseNat a.verse_ID ≤ parseNat b.verse_ID)))

instance (a b : BCVID) : Decidable (a.le b) := by
  unfold BCVID.le; exact inferInstance

/-- Well-formedness of a `BCID`: fixed-width decimal components. -/
def BCID.WF (x : BCID) : Prop :=
  DigitStr 2 x.book_ID ∧ DigitStr 3 x.chapter_ID

instance (x : BCID) : Decidable x.WF := by
  unfold BCID.WF; exact inferInstance

/-- Well-formedness of a `BCVID`: fixed-width decimal components. -/
def BCVID.WF (x : BCVID) : Prop :=
  DigitStr 2 x.book_ID ∧ DigitStr 3 x.chapter_ID ∧ DigitStr 3 x.verse_ID

instance (x : BCVID) : Decidable x.WF := by
  unfold BCVID.WF; exact inferInstance

/-! ### Units

`Chapter` and `Verse` live in `biblelib/unit/chapter.py` and
`biblelib/unit/verse.py`, which are not in this snapshot; they are modelled
from the spec.  A `Chapter` knows "the last verse number in that chapter"
(`lastverse`, external canon data modelled as an explicit function
parameter `lastverse : BCID → Nat`) and "can enumerate verse identifiers
between two verse numbers within itself" (inclusive). -/

/-- A chapter unit, wrapping its chapter-level identifier
(`Chapter(inst=bcid)` in the source). -/
structure Chapter where
  identifier : BCID
deriving DecidableEq

/-- A verse unit, wrapping its verse-level identifier
(`Verse(bcvid)` in the source). -/
structure Verse where
  identifier : BCVID
deriving DecidableEq

/-- Modelled from the spec: `Chapter(identifier).enumerate(start_verse_num,
end_verse_num)` "produces ordered verse-level identifiers for verse numbers
in the inclusive range given". -/
def Chapter.enumerate (c : Chapter) (startindex endindex : Nat) : List Verse :=
  (List.range' startindex (endindex + 1 - startindex)).map
    (fun v => Verse.mk (BCVID.mk c.identifier.book_ID c.identifier.chapter_ID (pad v 3)))

/-- The two validation-failure kinds of the spec's error taxonomy (§7);
the source raises `AssertionError` for both, with the same two guards. -/
inductive ValidationError where
  | crossBook
  | outOfOrder
deriving DecidableEq

/-! ### ChapterRange (`biblelib/unit/unitrange.py`) -/

/-- A range of chapters (`ChapterRange` dataclass). -/
structure ChapterRange where
  startid : BCID
  endid : BCID
deriving DecidableEq

/-- The `ChapterRange` dataclass constructor together with its
`__post_init__` checks: first the same-book assertion
(`simplify(startid, BID) == simplify(endid, BID)`), then the ordering
assertion (`startid <= endid`).  A failed assertion is a raised
`ValidationError`; no instance is produced in that case. -/
def ChapterRange.make (startid endid : BCID) : Except ValidationError ChapterRange :=
  if simplifyBCID_BID startid = simplifyBCID_BID endid then
    if startid.le endid then .ok ⟨startid, endid⟩
    else .error .outOfOrder
  else .error .crossBook

/-- The method `ChapterRange.enumerate`, translated from the source:
vacuous range gives the single chapter; otherwise build a chapter for every
integer from the start chapter number to the end chapter number inclusive,
zero-padding each to width 3 behind the shared book component. -/
def ChapterRange.enumerate (r : ChapterRange) : List Chapter :=
  if r.startid = r.endid then [Chapter.mk r.startid]
  else
    let bookid := r.startid.book_ID
    let startid_chap := parseNat r.startid.chapter_ID
    let endid_chap := parseNat r.endid.chapter_ID
    let chapters := List.range' startid_chap (endid_chap + 1 - startid_chap)
    chapters.map (fun i => Chapter.mk (BCID.mk bookid (pad i 3)))

/-! ### VerseRange (`biblelib/unit/unitrange.py`) -/

/-- A range of verses (`VerseRange` dataclass).  The Python dataclass
declares two further `init=False` fields `ID` and `book_ID`, commented
"these are computed from startid and endid"; `__post_init__` assigns
`book_ID` but never assigns `ID`, so `ID` is modelled as an `Option` that
records whether the field was ever set. -/
structure VerseRange where
  startid : BCVID
  endid : BCVID
  ID : Option (List Char)
  book_ID : List Char
deriving DecidableEq

/-- The `VerseRange` dataclass constructor together with its
`__post_init__`: derive `book_ID` from `startid.to_bid`, assert the
same-book condition (`book_ID == simplify(endid, BID)`), then assert
`startid <= endid`.  The `ID` field is never assigned. -/
def VerseRange.make (startid endid : BCVID) : Except ValidationError VerseRange :=
  let book : BID := startid.to_bid
  let book_ID := book.ID
  if book_ID = (simplifyBCVID_BID endid).ID then
    if startid.le endid then .ok ⟨startid, endid, none, book_ID⟩
    else .error .outOfOrder
  else .error .crossBook

/-- The inner helper `get_verses` of `VerseRange.enumerate`:
`Chapter(inst=bcid).enumerate(startindex, endindex)`. -/
def get_verses (bcid : BCID) (startindex endindex : Nat) : List Verse :=
  (Chapter.mk bcid).enumerate startindex endindex

/-- The method `VerseRange.enumerate`, translated from the source.  `lastverse` is the
external per-chapter last-verse-number lookup of the `Chapter` collaborator.
Python's `chapenum[0]`/`chapenum[-1]` index a list that is provably
nonempty in that branch; they are modelled with `headD`/`getLastD` (the
default is never used), and `chapenum[1:-1]` is `(drop 1).dropLast`. -/
def VerseRange.enumerate (lastverse : BCID → Nat) (r : VerseRange) : List Verse :=
  if r.startid = r.endid then [Verse.mk r.startid]
  else
    let startid_chap_index := parseNat r.startid.chapter_ID
    let startid_verse_index := parseNat r.startid.verse_ID
    let endid_chap_index := parseNat r.endid.chapter_ID
    let endid_verse_index := parseNat r.endid.verse_ID
    if startid_chap_index = endid_chap_index then
      (Chapter.mk (simplifyBCVID_BCID r.startid)).enumerate startid_verse_index endid_verse_index
    else
      let chaprange := ChapterRange.mk (simplifyBCVID_BCID r.startid) (simplifyBCVID_BCID r.endid)
      let chapenum := chaprange.enumerate
      let firstbcid := (chapenum.headD (Chapter.mk (simplifyBCVID_BCID r.startid))).identifier
      let firstverses := get_verses firstbcid startid_verse_index (lastverse firstbcid)
      let midbcids := (chapenum.drop 1).dropLast
      let midverses := (midbcids.map (fun chap => chap.enumerate 1 (lastverse chap.identifier))).flatten
      let lastbcid := (chapenum.getLastD (Chapter.mk (simplifyBCVID_BCID r.endid))).identifier
      let lastverses := get_verses lastbcid 1 endid_verse_index
      firstverses ++ midverses ++ lastverses

/-- Verse-number validity of a `BCVID` against the canon data: its verse
number is between 1 and the last verse of its chapter. -/
def BCVID.InBounds (lastverse : BCID → Nat) (x : BCVID) : Prop :=
  1 ≤ parseNat x.verse_ID ∧ parseNat x.verse_ID ≤ lastverse (simplifyBCVID_BCID x)

instance (lastverse : BCID → Nat) (x : BCVID) : Decidable (x.InBounds lastverse) := by
  unfold BCVID.InBounds; exact inferInstance

/-- The spec's independent inclusive verse count for the span from `s` to
`e`: over every chapter number from `s`'s to `e`'s, the number of verses
taken from that chapter (from `s`'s verse number in the first chapter, else
from 1; up to `e`'s verse number in the last chapter, else up to the
chapter's last verse). -/
def verseCount (lastverse : BCID → Nat) (s e : BCVID) : Nat :=
  let sc := parseNat s.chapter_ID
  let ec := parseNat e.chapter_ID
  let sv := parseNat s.verse_ID
  let ev := parseNat e.verse_ID
  ((List.range' sc (ec + 1 - sc)).map (fun c =>
    (if c = ec then ev else lastverse (BCID.mk s.book_ID (pad c 3))) + 1 -
      (if c = sc then sv else 1))).sum

/-- State-passing embedding of the Python method call `r.enumerate()` on a
`ChapterRange`: the method body reads `self.startid`/`self.endid` but
contains no assignment to any field of `self`, so the post-state is the
receiver unchanged. -/
def ChapterRange.enumerateM (r : ChapterRange) : List Chapter × ChapterRange :=
  (r.enumerate, r)

/-- State-passing embedding of the Python method call `r.enumerate()` on a
`VerseRange`: the method body contains no assignment to any field of
`self`, so the post-state is the receiver unchanged. -/
def VerseRange.enumerateM (lastverse : BCID → Nat) (r : VerseRange) :
    List Verse × VerseRange :=
  (r.enumerate lastverse, r)

/-! ### ClearID (`biblelib/words/mappings.py`) -/

/-- The `ClearID` dataclass of `biblelib/words/mappings.py`: a word
identifier in format `BBCCCVVVWWW` or `BBCCCVVVWWWP`, sliced into its
components on initialization. -/
structure ClearID where
  ID : List Char
  book_ID : List Char
  chapter_ID : List Char
  verse_ID : List Char
  word_ID : List Char
  part_ID : List Char
deriving DecidableEq

/-- The `ClearID` constructor together with its `__post_init__`: assert
`12 >= len(ID) >= 11` (a failure, `none`, is the raised `AssertionError`),
then slice `ID[:2]`, `ID[2:5]`, `ID[5:8]`, `ID[8:11]`, and — only when the
length is 12 — `ID[11]`; `part_ID` keeps its declared default `""`
otherwise. -/
def ClearID.make (ID : List Char) : Option ClearID :=
  if 11 ≤ ID.length ∧ ID.length ≤ 12 then
    some { ID := ID
           book_ID := ID.take 2
           chapter_ID := (ID.drop 2).take 3
           verse_ID := (ID.drop 5).take 3
           word_ID := (ID.drop 8).take 3
           part_ID := if ID.length = 12 then (ID.drop 11).take 1 else [] }
  else none

/-! ### Helper lemmas -/

theorem bcid_le_refl (x : BCID) : x.le x := Or.inr ⟨rfl, Nat.le_refl _⟩

theorem bcvid_le_refl (x : BCVID) : x.le x := Or.inr ⟨rfl, Or.inr ⟨rfl, Nat.le_refl _⟩⟩

theorem bcid_pad_chapter (x : BCID) (h : x.WF) :
    pad (parseNat x.chapter_ID) 3 = x.chapter_ID :=
  pad_parseNat 3 x.chapter_ID h.2

theorem bcid_chapter_lt_1000 (x : BCID) (h : x.WF) : parseNat x.chapter_ID < 1000 := by
  have := parseNat_lt x.chapter_ID h.2.2
  rwa [h.2.1] at this

theorem bcvid_pad_chapter (x : BCVID) (h : x.WF) :
    pad (parseNat x.chapter_ID) 3 = x.chapter_ID :=
  pad_parseNat 3 x.chapter_ID h.2.1

theorem bcvid_pad_verse (x : BCVID) (h : x.WF) :
    pad (parseNat x.verse_ID) 3 = x.verse_ID :=
  pad_parseNat 3 x.verse_ID h.2.2

theorem bcvid_chapter_lt_1000 (x : BCVID) (h : x.WF) : parseNat x.chapter_ID < 1000 := by
  have := parseNat_lt x.chapter_ID h.2.1.2
  rwa [h.2.1.1] at this

theorem chapterRange_make_ok (s e : BCID) (r : ChapterRange)
    (h : ChapterRange.make s e = .ok r) :
    r = ⟨s, e⟩ ∧ s.book_ID = e.book_ID ∧ s.le e := by
  unfold ChapterRange.make at h
  split_ifs at h with h1 h2
  · cases h
    refine ⟨rfl, ?_, h2⟩
    simpa [simplifyBCID_BID, BID.mk.injEq] using h1

theorem verseRange_make_ok (s e : BCVID) (r : VerseRange)
    (h : VerseRange.make s e = .ok r) :
    r = ⟨s, e, none, s.book_ID⟩ ∧ s.book_ID = e.book_ID ∧ s.le e := by
  unfold VerseRange.make at h
  simp only [BCVID.to_bid, simplifyBCVID_BID] at h
  split_ifs at h with h1 h2
  · cases h
    exact ⟨rfl, h1, h2⟩

/-- Ordering `s ≤ e` for verse ids of the same book splits by chapter comparison. -/
theorem bcvid_le_same_book (s e : BCVID) (hb : s.book_ID = e.book_ID) (h : s.le e) :
    parseNat s.chapter_ID < parseNat e.chapter_ID ∨
      (parseNat s.chapter_ID = parseNat e.chapter_ID ∧
        parseNat s.verse_ID ≤ parseNat e.verse_ID) := by
  rcases h with h | ⟨-, h⟩
  · rw [hb] at h
    exact absurd h (Nat.lt_irrefl _)
  · exact h

theorem bcid_le_same_book (s e : BCID) (hb : s.book_ID = e.book_ID) (h : s.le e) :
    parseNat s.chapter_ID ≤ parseNat e.chapter_ID := by
  rcases h with h | ⟨-, h⟩
  · rw [hb] at h
    exact absurd h (Nat.lt_irrefl _)
  · exact h

theorem Chapter.length_enumerate (c : Chapter) (si ei : Nat) :
    (c.enumerate si ei).length = ei + 1 - si := by
  simp [Chapter.enumerate]

theorem Chapter.head?_enumerate (c : Chapter) (si ei : Nat) (h : si ≤ ei) :
    (c.enumerate si ei).head? =
      some (Verse.mk ⟨c.identifier.book_ID, c.identifier.chapter_ID, pad si 3⟩) := by
  simp only [Chapter.enumerate, List.head?_map, List.head?_range']
  rw [if_neg (by omega)]
  rfl

theorem Chapter.getLast?_enumerate (c : Chapter) (si ei : Nat) (h : si ≤ ei) :
    (c.enumerate si ei).getLast? =
      some (Verse.mk ⟨c.identifier.book_ID, c.identifier.chapter_ID, pad ei 3⟩) := by
  simp only [Chapter.enumerate, List.getLast?_map, List.getLast?_range']
  rw [if_neg (by omega)]
  have : si + (ei + 1 - si) - 1 = ei := by omega
  rw [this]
  rfl

theorem Chapter.enumerate_ne_nil (c : Chapter) (si ei : Nat) (h : si ≤ ei) :
    c.enumerate si ei ≠ [] := by
  intro h0
  have := congrArg List.length h0
  rw [Chapter.length_enumerate] at this
  simp at this
  omega

/-- A `Chain'` holds on `range'` when the relation holds at each adjacent pair. -/
theorem chain'_range' (R : Nat → Nat → Prop) (s n : Nat)
    (h : ∀ i, s ≤ i → i + 1 < s + n → R i (i + 1)) :
    List.Chain' R (List.range' s n) := by
  induction n generalizing s with
  | zero => simp
  | succ n ih =>
    rw [List.range'_succ]
    rw [List.chain'_cons']
    constructor
    · intro y hy
      rw [List.head?_range'] at hy
      split_ifs at hy with hn
      · simp at hy
      · simp only [Option.mem_def, Option.some.injEq] at hy
        subst hy
        exact h s (Nat.le_refl s) (by omega)
    · exact ih (s + 1) (fun i h1 h2 => h i (by omega) (by omega))

/-- An inclusive integer range with at least two elements splits into its
first element, the strictly-between elements, and its last element. -/
theorem range'_split_ends (sc ec : Nat) (h : sc < ec) :
    List.range' sc (ec + 1 - sc) =
      sc :: (List.range' (sc + 1) (ec - (sc + 1)) ++ [ec]) := by
  have hn : ec + 1 - sc = ((ec - (sc + 1)) + 1) + 1 := by omega
  rw [hn, List.range'_succ, List.range'_1_concat]
  rw [show sc + 1 + (ec - (sc + 1)) = ec from by omega]

/-- On a non-vacuous range, `ChapterRange.enumerate` is the mapped
integer range of chapter numbers. -/
theorem ChapterRange.enumerate_of_ne (r : ChapterRange) (h : r.startid ≠ r.endid) :
    r.enumerate = (List.range' (parseNat r.startid.chapter_ID)
      (parseNat r.endid.chapter_ID + 1 - parseNat r.startid.chapter_ID)).map
      (fun i => Chapter.mk (BCID.mk r.startid.book_ID (pad i 3))) := by
  rw [ChapterRange.enumerate, if_neg h]

/-- On a chapter-crossing range, `VerseRange.enumerate` decomposes into the
first chapter's tail, every middle chapter in full, and the last chapter's
head. -/
theorem VerseRange.enumerate_multichapter (lastverse : BCID → Nat) (r : VerseRange)
    (hs : r.startid.WF) (he : r.endid.WF)
    (hbook : r.startid.book_ID = r.endid.book_ID)
    (hlt : parseNat r.startid.chapter_ID < parseNat r.endid.chapter_ID) :
    r.enumerate lastverse =
      get_verses (simplifyBCVID_BCID r.startid) (parseNat r.startid.verse_ID)
        (lastverse (simplifyBCVID_BCID r.startid)) ++
      ((List.range' (parseNat r.startid.chapter_ID + 1)
          (parseNat r.endid.chapter_ID - (parseNat r.startid.chapter_ID + 1))).map
        (fun c => get_verses (BCID.mk r.startid.book_ID (pad c 3)) 1
          (lastverse (BCID.mk r.startid.book_ID (pad c 3))))).flatten ++
      get_verses (simplifyBCVID_BCID r.endid) 1 (parseNat r.endid.verse_ID) := by
  have hne : r.startid ≠ r.endid := by
    intro h
    rw [h] at hlt
    exact Nat.lt_irrefl _ hlt
  have hcc : ¬ (parseNat r.startid.chapter_ID = parseNat r.endid.chapter_ID) :=
    Nat.ne_of_lt hlt
  have hsne : simplifyBCVID_BCID r.startid ≠ simplifyBCVID_BCID r.endid := by
    intro h
    apply hcc
    have h2 := congrArg BCID.chapter_ID h
    simpa [simplifyBCVID_BCID] using congrArg parseNat h2
  have hch : (ChapterRange.mk (simplifyBCVID_BCID r.startid)
        (simplifyBCVID_BCID r.endid)).enumerate =
      (List.range' (parseNat r.startid.chapter_ID)
        (parseNat r.endid.chapter_ID + 1 - parseNat r.startid.chapter_ID)).map
        (fun i => Chapter.mk (BCID.mk r.startid.book_ID (pad i 3))) :=
    ChapterRange.enumerate_of_ne _ hsne
  have hsplit := range'_split_ends (parseNat r.startid.chapter_ID)
    (parseNat r.endid.chapter_ID) hlt
  have hpadS : pad (parseNat r.startid.chapter_ID) 3 = r.startid.chapter_ID :=
    bcvid_pad_chapter _ hs
  have hpadE : pad (parseNat r.endid.chapter_ID) 3 = r.endid.chapter_ID :=
    bcvid_pad_chapter _ he
  rw [VerseRange.enumerate, if_neg hne]
  simp only [if_neg hcc]
  rw [hch, hsplit, List.map_cons, List.map_append]
  simp only [List.headD_cons, List.map_cons, List.map_nil, List.dropLast_concat,
    List.getLastD_cons, List.getLastD_concat, List.map_map]
  rw [List.drop_one, List.tail_cons]
  rw [List.dropLast_concat]
  simp only [get_verses, simplifyBCVID_BCID, Function.comp, Chapter.enumerate, hpadS, hpadE,
    hbook]
  rw [List.map_map]
  rfl

/-! ### Claim theorems -/

/-- C2: for every validly constructed `ChapterRange`, `enumerate()`
returns a strictly ascending, gap-free sequence of chapter identifiers
(consecutive integer chapter numbers, each built from the shared book
component plus the chapter number zero-padded to width 3) whose first
element equals `startid` and whose last element equals `endid`. -/
theorem chapterRange_enumerate_ascending (s e : BCID) (r : ChapterRange)
    (hmk : ChapterRange.make s e = .ok r) (hs : s.WF) (he : e.WF) :
    r.enumerate.head? = some (Chapter.mk s) ∧
    r.enumerate.getLast? = some (Chapter.mk e) ∧
    (∀ c ∈ r.enumerate,
      c.identifier = BCID.mk s.book_ID (pad (parseNat c.identifier.chapter_ID) 3)) ∧
    List.Chain' (fun a b => a.identifier.lt b.identifier ∧
      parseNat b.identifier.chapter_ID = parseNat a.identifier.chapter_ID + 1)
      r.enumerate := by
  obtain ⟨rfl, hbook, hle⟩ := chapterRange_make_ok s e r hmk
  by_cases hse : s = e
  · subst hse
    have henum : (ChapterRange.mk s s).enumerate = [Chapter.mk s] := by
      simp [ChapterRange.enumerate]
    rw [henum]
    refine ⟨rfl, rfl, ?_, List.chain'_singleton _⟩
    intro c hc
    rw [List.mem_singleton] at hc
    subst hc
    show s = BCID.mk s.book_ID (pad (parseNat s.chapter_ID) 3)
    rw [bcid_pad_chapter s hs]
  · have hsc : parseNat s.chapter_ID ≤ parseNat e.chapter_ID :=
      bcid_le_same_book s e hbook hle
    have hec1000 : parseNat e.chapter_ID < 1000 := bcid_chapter_lt_1000 e he
    have henum : (ChapterRange.mk s e).enumerate =
        (List.range' (parseNat s.chapter_ID)
          (parseNat e.chapter_ID + 1 - parseNat s.chapter_ID)).map
          (fun i => Chapter.mk (BCID.mk s.book_ID (pad i 3))) :=
      ChapterRange.enumerate_of_ne (ChapterRange.mk s e) hse
    have hcount : parseNat e.chapter_ID + 1 - parseNat s.chapter_ID =
        (parseNat e.chapter_ID - parseNat s.chapter_ID) + 1 := by omega
    refine ⟨?_, ?_, ?_, ?_⟩
    · rw [henum, List.head?_map, List.head?_range', if_neg (by omega)]
      simp only [Option.map_some']
      rw [bcid_pad_chapter s hs]
    · rw [henum, List.getLast?_map, List.getLast?_range', if_neg (by omega)]
      simp only [Option.map_some']
      have harith : parseNat s.chapter_ID +
          (parseNat e.chapter_ID + 1 - parseNat s.chapter_ID) - 1 =
          parseNat e.chapter_ID := by omega
      rw [harith, hbook, bcid_pad_chapter e he]
    · intro c hc
      rw [henum, List.mem_map] at hc
      obtain ⟨i, hi, rfl⟩ := hc
      rw [List.mem_range'_1] at hi
      have hi1000 : i < 1000 := by omega
      simp only
      rw [parseNat_pad_of_lt i 3 (by norm_num; omega)]
    · rw [henum]
      rw [List.chain'_map]
      apply chain'_range'
      intro i h1 h2
      have hi1 : i + 1 ≤ parseNat e.chapter_ID := by omega
      have hp1 : parseNat (pad i 3) = i :=
        parseNat_pad_of_lt i 3 (by norm_num; omega)
      have hp2 : parseNat (pad (i + 1) 3) = i + 1 :=
        parseNat_pad_of_lt (i + 1) 3 (by norm_num; omega)
      constructor
      · exact Or.inr ⟨rfl, by rw [hp1, hp2]; omega⟩
      · rw [hp1, hp2]

/-- Witness for C2: the docstring scenario `ChapterRange(BCID("41002"),
BCID("41005"))` (Mark 2–5). -/
theorem chapterRange_enumerate_ascending_witness :
    (ChapterRange.mk ⟨['4','1'], ['0','0','2']⟩ ⟨['4','1'], ['0','0','5']⟩).enumerate.head? =
        some (Chapter.mk ⟨['4','1'], ['0','0','2']⟩) ∧
    (ChapterRange.mk ⟨['4','1'], ['0','0','2']⟩ ⟨['4','1'], ['0','0','5']⟩).enumerate.getLast? =
        some (Chapter.mk ⟨['4','1'], ['0','0','5']⟩) ∧
    (∀ c ∈ (ChapterRange.mk ⟨['4','1'], ['0','0','2']⟩ ⟨['4','1'], ['0','0','5']⟩).enumerate,
      c.identifier = BCID.mk ['4','1'] (pad (parseNat c.identifier.chapter_ID) 3)) ∧
    List.Chain' (fun a b => a.identifier.lt b.identifier ∧
      parseNat b.identifier.chapter_ID = parseNat a.identifier.chapter_ID + 1)
      (ChapterRange.mk ⟨['4','1'], ['0','0','2']⟩ ⟨['4','1'], ['0','0','5']⟩).enumerate :=
  chapterRange_enumerate_ascending ⟨['4','1'], ['0','0','2']⟩ ⟨['4','1'], ['0','0','5']⟩
    (ChapterRange.mk ⟨['4','1'], ['0','0','2']⟩ ⟨['4','1'], ['0','0','5']⟩)
    (by decide) (by decide) (by decide)

/-- C4: for both `ChapterRange` and `VerseRange`, construction with
`startid == endid` succeeds (it is not an error) and `enumerate()` returns
exactly the single-element sequence containing the unit identified by
`startid`, not an empty sequence. -/
theorem vacuous_range_law (s : BCID) (v : BCVID) (lastverse : BCID → Nat) :
    ChapterRange.make s s = .ok ⟨s, s⟩ ∧
    (ChapterRange.mk s s).enumerate = [Chapter.mk s] ∧
    VerseRange.make v v = .ok ⟨v, v, none, v.book_ID⟩ ∧
    (VerseRange.mk v v none v.book_ID).enumerate lastverse = [Verse.mk v] := by
  refine ⟨?_, ?_, ?_, ?_⟩
  · unfold ChapterRange.make
    rw [if_pos rfl, if_pos (bcid_le_refl s)]
  · simp [ChapterRange.enumerate]
  · simp [VerseRange.make, bcvid_le_refl v, BCVID.to_bid, simplifyBCVID_BID]
  · simp [VerseRange.enumerate]

/-- C5: constructing a `ChapterRange` or a `VerseRange` whose two
identifiers do not simplify to the same book fails at construction with the
cross-book validation failure, producing no instance. -/
theorem crossBook_rejection (s e : BCID) (vs ve : BCVID)
    (h1 : simplifyBCID_BID s ≠ simplifyBCID_BID e)
    (h2 : simplifyBCVID_BID vs ≠ simplifyBCVID_BID ve) :
    ChapterRange.make s e = .error .crossBook ∧
    VerseRange.make vs ve = .error .crossBook := by
  constructor
  · unfold ChapterRange.make
    rw [if_neg h1]
  · unfold VerseRange.make
    simp only [BCVID.to_bid, simplifyBCVID_BID]
    rw [if_neg ?hbook]
    case hbook =>
      intro hbb
      exact h2 (by simpa [simplifyBCVID_BID, BID.mk.injEq] using hbb)

/-- Witness for C5 at a concrete cross-book input (Matthew 40 vs Mark 41). -/
theorem crossBook_rejection_witness :
    ChapterRange.make ⟨['4','0'], ['0','0','2']⟩ ⟨['4','1'], ['0','0','5']⟩ =
        .error .crossBook ∧
    VerseRange.make ⟨['4','0'], ['0','0','2'], ['0','0','1']⟩
        ⟨['4','1'], ['0','0','5'], ['0','0','3']⟩ = .error .crossBook :=
  crossBook_rejection ⟨['4','0'], ['0','0','2']⟩ ⟨['4','1'], ['0','0','5']⟩
    ⟨['4','0'], ['0','0','2'], ['0','0','1']⟩ ⟨['4','1'], ['0','0','5'], ['0','0','3']⟩
    (by decide) (by decide)

/-- C6: with matching books, construction fails with the out-of-order
validation failure exactly when `startid` canonically follows `endid`, and
succeeds whenever `startid <= endid`, for both range types. -/
theorem outOfOrder_check (s e : BCID) (vs ve : BCVID)
    (hb : simplifyBCID_BID s = simplifyBCID_BID e)
    (hvb : simplifyBCVID_BID vs = simplifyBCVID_BID ve) :
    (¬ s.le e → ChapterRange.make s e = .error .outOfOrder) ∧
    (s.le e → ChapterRange.make s e = .ok ⟨s, e⟩) ∧
    (¬ vs.le ve → VerseRange.make vs ve = .error .outOfOrder) ∧
    (vs.le ve → VerseRange.make vs ve = .ok ⟨vs, ve, none, vs.book_ID⟩) := by
  have hvb' : vs.book_ID = ve.book_ID := by
    simpa [simplifyBCVID_BID, BID.mk.injEq] using hvb
  refine ⟨?_, ?_, ?_, ?_⟩
  · intro hlt
    unfold ChapterRange.make
    rw [if_pos hb, if_neg hlt]
  · intro hle
    unfold ChapterRange.make
    rw [if_pos hb, if_pos hle]
  · intro hlt
    unfold VerseRange.make
    simp only [BCVID.to_bid, simplifyBCVID_BID]
    rw [if_pos hvb', if_neg hlt]
  · intro hle
    unfold VerseRange.make
    simp only [BCVID.to_bid, simplifyBCVID_BID]
    rw [if_pos hvb', if_pos hle]

/-- Witness for C6 at a concrete out-of-order input (Mark 5 before Mark 2). -/
theorem outOfOrder_check_witness :
    (¬ BCID.le ⟨['4','1'], ['0','0','5']⟩ ⟨['4','1'], ['0','0','2']⟩ →
      ChapterRange.make ⟨['4','1'], ['0','0','5']⟩ ⟨['4','1'], ['0','0','2']⟩ =
        .error .outOfOrder) ∧
    (BCID.le ⟨['4','1'], ['0','0','5']⟩ ⟨['4','1'], ['0','0','2']⟩ →
      ChapterRange.make ⟨['4','1'], ['0','0','5']⟩ ⟨['4','1'], ['0','0','2']⟩ =
        .ok ⟨⟨['4','1'], ['0','0','5']⟩, ⟨['4','1'], ['0','0','2']⟩⟩) ∧
    (¬ BCVID.le ⟨['4','1'], ['0','0','5'], ['0','0','1']⟩ ⟨['4','1'], ['0','0','2'], ['0','0','1']⟩ →
      VerseRange.make ⟨['4','1'], ['0','0','5'], ['0','0','1']⟩
        ⟨['4','1'], ['0','0','2'], ['0','0','1']⟩ = .error .outOfOrder) ∧
    (BCVID.le ⟨['4','1'], ['0','0','5'], ['0','0','1']⟩ ⟨['4','1'], ['0','0','2'], ['0','0','1']⟩ →
      VerseRange.make ⟨['4','1'], ['0','0','5'], ['0','0','1']⟩
        ⟨['4','1'], ['0','0','2'], ['0','0','1']⟩ =
        .ok ⟨⟨['4','1'], ['0','0','5'], ['0','0','1']⟩,
             ⟨['4','1'], ['0','0','2'], ['0','0','1']⟩, none, ['4','1']⟩) :=
  outOfOrder_check ⟨['4','1'], ['0','0','5']⟩ ⟨['4','1'], ['0','0','2']⟩
    ⟨['4','1'], ['0','0','5'], ['0','0','1']⟩ ⟨['4','1'], ['0','0','2'], ['0','0','1']⟩
    (by decide) (by decide)

/-- C7 (failing input): constructing the valid `VerseRange` from Mark 1:1
to Mark 1:2 sets `book_ID` to the book component of `startid`, but the `ID`
field declared by the dataclass is never assigned by `__post_init__`
(modelled as `none`), so reading the `ID` attribute raises
`AttributeError` rather than succeeding. -/
theorem verseRange_ID_never_assigned :
    VerseRange.make ⟨['4','1'], ['0','0','1'], ['0','0','1']⟩
        ⟨['4','1'], ['0','0','1'], ['0','0','2']⟩ =
      .ok ⟨⟨['4','1'], ['0','0','1'], ['0','0','1']⟩,
           ⟨['4','1'], ['0','0','1'], ['0','0','2']⟩, none, ['4','1']⟩ := by
  decide

/-- C8: `enumerate()` is pure for both range types: in the state-passing
embedding of the method it leaves every field of the instance unchanged,
and a second call on the resulting instance returns an equal sequence. -/
theorem enumerate_pure (r : ChapterRange) (v : VerseRange) (lastverse : BCID → Nat) :
    r.enumerateM.2 = r ∧
    r.enumerateM.2.enumerateM.1 = r.enumerateM.1 ∧
    (v.enumerateM lastverse).2 = v ∧
    ((v.enumerateM lastverse).2.enumerateM lastverse).1 = (v.enumerateM lastverse).1 :=
  ⟨rfl, rfl, rfl, rfl⟩

/-- C10: the `ClearID` constructor raises its `AssertionError` exactly when
the length of `ID` is neither 11 nor 12; for lengths 11 and 12 it
succeeds. -/
theorem clearID_length_assertion (l : List Char) :
    ClearID.make l = none ↔ (l.length ≠ 11 ∧ l.length ≠ 12) := by
  unfold ClearID.make
  split_ifs with h
  · simp only [reduceCtorEq, false_iff]
    omega
  · simp only [true_iff]
    omega

/-- C9: for every string of length 11 or 12 accepted by the `ClearID`
constructor, the computed components partition the string without loss:
`book_ID ++ chapter_ID ++ verse_ID ++ word_ID ++ part_ID` equals `ID`. -/
theorem clearID_partition (l : List Char) (c : ClearID) (h : ClearID.make l = some c) :
    c.book_ID ++ c.chapter_ID ++ c.verse_ID ++ c.word_ID ++ c.part_ID = l := by
  unfold ClearID.make at h
  have h5 : l.take 2 ++ (l.drop 2).take 3 = l.take 5 := (List.take_add l 2 3).symm
  have h8 : l.take 5 ++ (l.drop 5).take 3 = l.take 8 := (List.take_add l 5 3).symm
  have h11 : l.take 8 ++ (l.drop 8).take 3 = l.take 11 := (List.take_add l 8 3).symm
  have h12 : l.take 11 ++ (l.drop 11).take 1 = l.take 12 := (List.take_add l 11 1).symm
  split_ifs at h with hlen hl12
  · -- length 12: part_ID = ID[11]
    cases h
    simp only
    calc l.take 2 ++ (l.drop 2).take 3 ++ (l.drop 5).take 3 ++ (l.drop 8).take 3 ++
          (l.drop 11).take 1
        = l.take 11 ++ (l.drop 11).take 1 := by rw [← h11, ← h8, ← h5]
      _ = l.take 12 := h12
      _ = l := List.take_of_length_le (by omega)
  · -- length 11: part_ID keeps its default ""
    cases h
    simp only
    rw [List.append_nil]
    calc l.take 2 ++ (l.drop 2).take 3 ++ (l.drop 5).take 3 ++ (l.drop 8).take 3
        = l.take 11 := by rw [← h11, ← h8, ← h5]
      _ = l := List.take_of_length_le (by omega)

/-- Witness for C9 at the concrete id from the repository's test data
(`43001001005`, John 1:1 word 5). -/
theorem clearID_partition_witness :
    (ClearID.make ['4','3','0','0','1','0','0','1','0','0','5']).elim False
      (fun c => c.book_ID ++ c.chapter_ID ++ c.verse_ID ++ c.word_ID ++ c.part_ID =
        ['4','3','0','0','1','0','0','1','0','0','5']) :=
  clearID_partition ['4','3','0','0','1','0','0','1','0','0','5'] _ rfl

/-- C3: for every validly constructed `VerseRange` whose start and end
chapter components differ, `enumerate()` is the concatenation, in order, of
the first chapter's verses from `startid`'s verse number through that
chapter's last verse number, all verses (1 through the chapter's last
verse) of every chapter strictly between first and last (possibly none),
and the last chapter's verses from 1 through `endid`'s verse number. -/
theorem verseRange_multichapter_decomposition (lastverse : BCID → Nat) (s e : BCVID)
    (r : VerseRange) (hmk : VerseRange.make s e = .ok r) (hs : s.WF) (he : e.WF)
    (hcc : parseNat s.chapter_ID ≠ parseNat e.chapter_ID) :
    r.enumerate lastverse =
      get_verses (simplifyBCVID_BCID s) (parseNat s.verse_ID)
        (lastverse (simplifyBCVID_BCID s)) ++
      ((List.range' (parseNat s.chapter_ID + 1)
          (parseNat e.chapter_ID - (parseNat s.chapter_ID + 1))).map
        (fun c => get_verses (BCID.mk s.book_ID (pad c 3)) 1
          (lastverse (BCID.mk s.book_ID (pad c 3))))).flatten ++
      get_verses (simplifyBCVID_BCID e) 1 (parseNat e.verse_ID) := by
  obtain ⟨rfl, hbook, hle⟩ := verseRange_make_ok s e r hmk
  have hlt : parseNat s.chapter_ID < parseNat e.chapter_ID := by
    rcases bcvid_le_same_book s e hbook hle with h | ⟨h, -⟩
    · exact h
    · exact absurd h hcc
  exact VerseRange.enumerate_multichapter lastverse ⟨s, e, none, s.book_ID⟩ hs he hbook hlt

/-- Witness for C3: Mark 1:44 – Mark 3:2 (chapters 1–3 of book 41, with
chapter 2 fully covered), with concrete per-chapter verse counts. -/
theorem verseRange_multichapter_decomposition_witness :
    (VerseRange.mk ⟨['4','1'], ['0','0','1'], ['0','4','4']⟩
        ⟨['4','1'], ['0','0','3'], ['0','0','2']⟩ none ['4','1']).enumerate
      (fun c => if c.chapter_ID = ['0','0','1'] then 45
        else if c.chapter_ID = ['0','0','2'] then 28 else 35) =
      get_verses (simplifyBCVID_BCID ⟨['4','1'], ['0','0','1'], ['0','4','4']⟩) 44
        ((fun c => if c.chapter_ID = ['0','0','1'] then 45
          else if c.chapter_ID = ['0','0','2'] then 28 else 35)
          (simplifyBCVID_BCID ⟨['4','1'], ['0','0','1'], ['0','4','4']⟩)) ++
      ((List.range' 2 1).map
        (fun c => get_verses (BCID.mk ['4','1'] (pad c 3)) 1
          ((fun c => if c.chapter_ID = ['0','0','1'] then 45
            else if c.chapter_ID = ['0','0','2'] then 28 else 35)
            (BCID.mk ['4','1'] (pad c 3))))).flatten ++
      get_verses (simplifyBCVID_BCID ⟨['4','1'], ['0','0','3'], ['0','0','2']⟩) 1 2 :=
  verseRange_multichapter_decomposition
    (fun c => if c.chapter_ID = ['0','0','1'] then 45
      else if c.chapter_ID = ['0','0','2'] then 28 else 35)
    ⟨['4','1'], ['0','0','1'], ['0','4','4']⟩ ⟨['4','1'], ['0','0','3'], ['0','0','2']⟩
    (VerseRange.mk ⟨['4','1'], ['0','0','1'], ['0','4','4']⟩
      ⟨['4','1'], ['0','0','3'], ['0','0','2']⟩ none ['4','1'])
    (by decide) (by decide) (by decide) (by decide)

/-- On a non-vacuous range within one chapter, `VerseRange.enumerate`
delegates to that chapter's enumeration. -/
theorem VerseRange.enumerate_single_chapter (lastverse : BCID → Nat) (r : VerseRange)
    (hne : r.startid ≠ r.endid)
    (hcc : parseNat r.startid.chapter_ID = parseNat r.endid.chapter_ID) :
    r.enumerate lastverse =
      (Chapter.mk (simplifyBCVID_BCID r.startid)).enumerate
        (parseNat r.startid.verse_ID) (parseNat r.endid.verse_ID) := by
  rw [VerseRange.enumerate, if_neg hne]
  simp only [if_pos hcc]

/-- C1: endpoints and independent length for verse-range enumeration. -/
theorem verseRange_enumerate_endpoints_length (lastverse : BCID → Nat)
    (s e : BCVID) (r : VerseRange)
    (hmk : VerseRange.make s e = .ok r) (hs : s.WF) (he : e.WF)
    (hsb : s.InBounds lastverse) (heb : e.InBounds lastverse) :
    (r.enumerate lastverse).head? = some (Verse.mk s) ∧
    (r.enumerate lastverse).getLast? = some (Verse.mk e) ∧
    (r.enumerate lastverse).length = verseCount lastverse s e := by
  obtain ⟨rfl, hbook, hle⟩ := verseRange_make_ok s e r hmk
  by_cases hse : s = e
  · subst hse
    have henum : (VerseRange.mk s s none s.book_ID).enumerate lastverse = [Verse.mk s] := by
      simp [VerseRange.enumerate]
    rw [henum]
    refine ⟨rfl, rfl, ?_⟩
    have h1 : parseNat s.chapter_ID + 1 - parseNat s.chapter_ID = 1 := by omega
    simp [verseCount, h1]
  · by_cases hchap : parseNat s.chapter_ID = parseNat e.chapter_ID
    · -- single chapter
      have hvle : parseNat s.verse_ID ≤ parseNat e.verse_ID := by
        rcases bcvid_le_same_book s e hbook hle with h | ⟨-, h⟩
        · omega
        · exact h
      have henum : (VerseRange.mk s e none s.book_ID).enumerate lastverse =
          (Chapter.mk (simplifyBCVID_BCID s)).enumerate
            (parseNat s.verse_ID) (parseNat e.verse_ID) :=
        VerseRange.enumerate_single_chapter lastverse _ hse hchap
      have hchapstr : s.chapter_ID = e.chapter_ID :=
        parseNat_injOn 3 _ _ hs.2.1 he.2.1 hchap
      refine ⟨?_, ?_, ?_⟩
      · rw [henum, Chapter.head?_enumerate _ _ _ hvle]
        simp only [simplifyBCVID_BCID]
        rw [bcvid_pad_verse s hs]
      · rw [henum, Chapter.getLast?_enumerate _ _ _ hvle]
        simp only [simplifyBCVID_BCID]
        rw [bcvid_pad_verse e he, hbook, hchapstr]
      · rw [henum, Chapter.length_enumerate]
        simp only [verseCount]
        rw [← hchap]
        rw [show parseNat s.chapter_ID + 1 - parseNat s.chapter_ID = 1 from by omega]
        rw [List.range'_one]
        simp only [List.map_cons, List.map_nil, List.sum_cons, List.sum_nil, if_true]
        omega
    · -- multi-chapter
      have hlt : parseNat s.chapter_ID < parseNat e.chapter_ID := by
        rcases bcvid_le_same_book s e hbook hle with h | ⟨h, -⟩
        · exact h
        · exact absurd h hchap
      have hdec : (VerseRange.mk s e none s.book_ID).enumerate lastverse =
          get_verses (simplifyBCVID_BCID s) (parseNat s.verse_ID)
            (lastverse (simplifyBCVID_BCID s)) ++
          ((List.range' (parseNat s.chapter_ID + 1)
              (parseNat e.chapter_ID - (parseNat s.chapter_ID + 1))).map
            (fun c => get_verses (BCID.mk s.book_ID (pad c 3)) 1
              (lastverse (BCID.mk s.book_ID (pad c 3))))).flatten ++
          get_verses (simplifyBCVID_BCID e) 1 (parseNat e.verse_ID) :=
        VerseRange.enumerate_multichapter lastverse _ hs he hbook hlt
      refine ⟨?_, ?_, ?_⟩
      · rw [hdec, List.append_assoc, List.head?_append]
        simp only [get_verses]
        rw [Chapter.head?_enumerate _ _ _ hsb.2]
        simp only [simplifyBCVID_BCID, Option.or_some]
        rw [bcvid_pad_verse s hs]
      · rw [hdec, List.getLast?_append]
        simp only [get_verses]
        rw [Chapter.getLast?_enumerate _ _ _ heb.1]
        simp only [simplifyBCVID_BCID, Option.or_some]
        rw [bcvid_pad_verse e he]
      · rw [hdec]
        simp only [List.length_append, List.length_flatten, List.map_map, get_verses,
          Chapter.length_enumerate]
        rw [List.map_congr_left (l := List.range' (parseNat s.chapter_ID + 1)
              (parseNat e.chapter_ID - (parseNat s.chapter_ID + 1)))
            (g := fun c => lastverse (BCID.mk s.book_ID (pad c 3)) + 1 - 1) ?hlen]
        case hlen =>
          intro c hc
          simp [Chapter.length_enumerate]
        simp only [verseCount]
        rw [range'_split_ends _ _ hlt]
        rw [List.map_cons, List.map_append, List.sum_cons, List.sum_append]
        simp only [List.map_cons, List.map_nil, List.sum_cons, List.sum_nil, if_true]
        rw [if_neg hchap, if_neg (fun h => hchap h.symm)]
        rw [List.map_congr_left (f := fun c =>
            (if c = parseNat e.chapter_ID then parseNat e.verse_ID
              else lastverse (BCID.mk s.book_ID (pad c 3))) + 1 -
            (if c = parseNat s.chapter_ID then parseNat s.verse_ID else 1))
          (g := fun c => lastverse (BCID.mk s.book_ID (pad c 3)) + 1 - 1) ?hmid]
        case hmid =>
          intro c hc
          rw [List.mem_range'_1] at hc
          have h1 : ¬(c = parseNat e.chapter_ID) := by omega
          have h2 : ¬(c = parseNat s.chapter_ID) := by omega
          simp only [h1, h2, if_false]
        rw [bcvid_pad_chapter s hs]
        simp only [simplifyBCVID_BCID]
        omega

/-- Witness for C1: the docstring scenario `VerseRange(BCVID("41001040"),
BCVID("41002002"))` (Mark 1:40 – 2:2, Mark 1 having 45 verses). -/
theorem verseRange_enumerate_endpoints_length_witness :
    ((VerseRange.mk ⟨['4','1'], ['0','0','1'], ['0','4','0']⟩
        ⟨['4','1'], ['0','0','2'], ['0','0','2']⟩ none ['4','1']).enumerate
      (fun c => if c.chapter_ID = ['0','0','1'] then 45 else 28)).head? =
        some (Verse.mk ⟨['4','1'], ['0','0','1'], ['0','4','0']⟩) ∧
    ((VerseRange.mk ⟨['4','1'], ['0','0','1'], ['0','4','0']⟩
        ⟨['4','1'], ['0','0','2'], ['0','0','2']⟩ none ['4','1']).enumerate
      (fun c => if c.chapter_ID = ['0','0','1'] then 45 else 28)).getLast? =
        some (Verse.mk ⟨['4','1'], ['0','0','2'], ['0','0','2']⟩) ∧
    ((VerseRange.mk ⟨['4','1'], ['0','0','1'], ['0','4','0']⟩
        ⟨['4','1'], ['0','0','2'], ['0','0','2']⟩ none ['4','1']).enumerate
      (fun c => if c.chapter_ID = ['0','0','1'] then 45 else 28)).length =
        verseCount (fun c => if c.chapter_ID = ['0','0','1'] then 45 else 28)
          ⟨['4','1'], ['0','0','1'], ['0','4','0']⟩
          ⟨['4','1'], ['0','0','2'], ['0','0','2']⟩ :=
  verseRange_enumerate_endpoints_length
    (fun c => if c.chapter_ID = ['0','0','1'] then 45 else 28)
    ⟨['4','1'], ['0','0','1'], ['0','4','0']⟩ ⟨['4','1'], ['0','0','2'], ['0','0','2']⟩
    (VerseRange.mk ⟨['4','1'], ['0','0','1'], ['0','4','0']⟩
      ⟨['4','1'], ['0','0','2'], ['0','0','2']⟩ none ['4','1'])
    (by decide) (by decide) (by decide) (by decide) (by decide)

end Biblelib
